import Mathlib

/-!
Shallow embedding of the bismark-data-transmit upload/retry/eviction
pipeline (src/bismark-data-transmit.c, src/upload_list.c,
src/upload_list.h) and proofs about it.

Modelling conventions:
- C machine integers are modelled as Lean Int (time_t, int) and Nat
  (size_t byte counts).  The quota comparison `total_bytes + entry->size
  > MAX_UPLOADS_BYTES` never overflows in the program because the
  running total is bounded by MAX_UPLOADS_BYTES = 5000000 and evicted
  sizes are never accumulated, so plain Nat arithmetic is faithful.
- Filesystem and network effects are modelled by oracles: uploadOk p
  is true when curl_send on path p returns 0, unlinkOk p is true when
  unlink(p) returns 0.
- Absolute paths are built by join_paths below.  In the C program every
  path handed around is produced by snprintf into a PATH_MAX buffer and
  is therefore shorter than PATH_MAX; the model uses plain string
  concatenation, which coincides with the program on all such paths.
- malloc and realloc are assumed to succeed where the program continues
  after them; the failure branches that return -1 early are modelled
  explicitly where they depend on program state (a NULL entries
  pointer).
-/

/-- PATH_MAX of limits.h as used on the target platform (Linux). -/
def PATH_MAX : Nat := 4096

/-- RETRY_INTERVAL_MINUTES * 60 with RETRY_INTERVAL_MINUTES = 3
(bismark-data-transmit.c lines 44-47). -/
def RETRY_INTERVAL_SECONDS : Int := 180

/-- MAX_UPLOADS_BYTES (bismark-data-transmit.c lines 51-53). -/
def MAX_UPLOADS_BYTES : Nat := 5000000

/-- upload_entry_t of upload_list.h lines 8-13: one backlog entry.
The filename is the absolute path of the spooled file, last_modified
the st_ctime snapshot, size the st_size snapshot, and index is declared
in the header as the owning directory index. -/
structure upload_entry_t where
  filename : String
  last_modified : Int
  size : Nat
  index : Int
deriving DecidableEq, Repr

/-- upload_list_t of upload_list.h lines 15-19.  The entries pointer is
modelled as an Option: none models entries == NULL (a failed malloc in
upload_list_init). -/
structure upload_list_t where
  capacity : Nat
  length : Nat
  entries : Option (List upload_entry_t)
deriving DecidableEq, Repr

/-- upload_list_init (upload_list.c lines 8-17), on the path where
malloc succeeds: capacity 16, length 0, an allocated entries buffer. -/
def upload_list_init : upload_list_t :=
  { capacity := 16, length := 0, entries := some [] }

/-- upload_list_append (upload_list.c lines 23-48).  Returns the updated
list and the C return value.  If entries is NULL it returns -1 and
leaves the list unchanged.  If length >= capacity the capacity is
doubled (the realloc is assumed to succeed).  Then length is
incremented and the new last entry receives the filename (strncpy with
bound PATH_MAX, hence the take), the last_modified time and the size.
The definition in upload_list.c takes no index argument and never
writes the index field declared in upload_list.h, even though
upload_list.h declares a fifth parameter `const int index` and the call
site in retry_uploads passes the directory index; the field therefore
holds whatever was in the malloc-ed memory, modelled by the explicit
uninit_index argument. -/
def upload_list_append (list : upload_list_t) (filename : String)
    (last_modified : Int) (size : Nat) (uninit_index : Int) :
    upload_list_t × Int :=
  match list.entries with
  | none => (list, -1)
  | some es =>
    let cap := if list.capacity ≤ list.length then 2 * list.capacity else list.capacity
    ({ capacity := cap,
       length := list.length + 1,
       entries := some (es ++ [{ filename := filename.take PATH_MAX,
                                 last_modified := last_modified,
                                 size := size,
                                 index := uninit_index }]) }, 0)

/-- compare_uploads (upload_list.c lines 50-60): qsort comparator that
orders entries by last_modified descending (returns 1 when the first
entry is older, -1 when it is newer, 0 on ties). -/
def compare_uploads (first second : upload_entry_t) : Int :=
  if first.last_modified < second.last_modified then 1
  else if second.last_modified < first.last_modified then -1
  else 0

/-- One insertion step of the sort model: place e before the first
element that does not have to precede it under compare_uploads. -/
def sort_insert (e : upload_entry_t) : List upload_entry_t → List upload_entry_t
  | [] => [e]
  | x :: xs => if compare_uploads e x ≤ 0 then e :: x :: xs else x :: sort_insert e xs

/-- upload_list_sort (upload_list.c lines 62-64): qsort with
compare_uploads.  qsort is specified only up to reordering by the
comparator, so any sort by compare_uploads is a faithful model; we use
insertion sort.  The result is ordered by last_modified descending. -/
def upload_list_sort (l : List upload_entry_t) : List upload_entry_t :=
  l.foldr sort_insert []

/-- Descending order on backlog entries: each entry is at least as
recently modified as every entry after it. -/
def sorted_desc (l : List upload_entry_t) : Prop :=
  l.Pairwise (fun a b => b.last_modified ≤ a.last_modified)

instance : DecidablePred sorted_desc := fun l =>
  inferInstanceAs (Decidable (l.Pairwise _))

theorem sort_insert_perm (e : upload_entry_t) (l : List upload_entry_t) :
    List.Perm (sort_insert e l) (e :: l) := by
  induction l with
  | nil => simp [sort_insert]
  | cons x xs ih =>
    by_cases h : compare_uploads e x ≤ 0
    · simp [sort_insert, h]
    · simp only [sort_insert, if_neg h]
      exact ((ih.cons x).trans (List.Perm.swap e x xs))

theorem upload_list_sort_perm (l : List upload_entry_t) :
    List.Perm (upload_list_sort l) l := by
  induction l with
  | nil => simp [upload_list_sort]
  | cons x xs ih =>
    exact ((sort_insert_perm x (upload_list_sort xs)).trans (ih.cons x))

theorem compare_uploads_le_zero (a b : upload_entry_t) :
    compare_uploads a b ≤ 0 ↔ b.last_modified ≤ a.last_modified := by
  unfold compare_uploads
  by_cases h1 : a.last_modified < b.last_modified
  · rw [if_pos h1]
    constructor <;> intro h <;> omega
  · rw [if_neg h1]
    by_cases h2 : b.last_modified < a.last_modified
    · rw [if_pos h2]
      constructor <;> intro h <;> omega
    · rw [if_neg h2]
      constructor <;> intro h <;> omega

theorem sort_insert_sorted (e : upload_entry_t) (l : List upload_entry_t)
    (h : sorted_desc l) : sorted_desc (sort_insert e l) := by
  induction l with
  | nil => simp [sort_insert, sorted_desc]
  | cons x xs ih =>
    rcases List.pairwise_cons.mp h with ⟨hx, hxs⟩
    by_cases hc : compare_uploads e x ≤ 0
    · have he := (compare_uploads_le_zero e x).mp hc
      simp only [sort_insert, if_pos hc]
      refine List.pairwise_cons.mpr ⟨?_, h⟩
      intro b hb
      rcases List.mem_cons.mp hb with rfl | hb
      · exact he
      · exact le_trans (hx b hb) he
    · have he : e.last_modified ≤ x.last_modified := by
        have h3 : ¬ x.last_modified ≤ e.last_modified := fun hco =>
          hc ((compare_uploads_le_zero e x).mpr hco)
        omega
      simp only [sort_insert, if_neg hc]
      refine List.pairwise_cons.mpr ⟨?_, ih hxs⟩
      intro b hb
      have hmem := (sort_insert_perm e xs).mem_iff.mp hb
      rcases List.mem_cons.mp hmem with rfl | hb2
      · exact he
      · exact hx b hb2

theorem upload_list_sort_sorted (l : List upload_entry_t) :
    sorted_desc (upload_list_sort l) := by
  induction l with
  | nil => simp [upload_list_sort, sorted_desc]
  | cons x xs ih => exact sort_insert_sorted x (upload_list_sort xs) ih

/-- join_paths (bismark-data-transmit.c lines 96-103): concatenate two
paths with a slash separator.  snprintf bounds the result to PATH_MAX;
every path the program forms is below that bound, so plain
concatenation is faithful. -/
def join_paths (first second : String) : String :=
  first ++ "/" ++ second

/-- One file currently resident in a spool directory: the d_name from
readdir, the stat snapshot st_ctime and st_size, and whether stat
reported S_ISREG or S_ISLNK. -/
structure spool_file where
  name : String
  st_ctime : Int
  st_size : Nat
  is_file : Bool
deriving DecidableEq, Repr

/-- One monitored spool directory: the name relative to UPLOADS_ROOT
(upload_subdirectories[idx]), the absolute path
(upload_directories[idx]) and the files currently inside it. -/
structure spool_dir where
  subdir : String
  dirpath : String
  files : List spool_file
deriving DecidableEq, Repr

/-- log_upload_failure (bismark-data-transmit.c lines 271-273):
increment failure_counters[index].  Counters are modelled as a total
function from the C int index to the counter value. -/
def log_upload_failure (counters : Int → Int) (index : Int) : Int → Int :=
  fun j => if j = index then counters j + 1 else counters j

/-- write_upload_failures_log (bismark-data-transmit.c lines 275-297):
the lines written to FAILURES_LOG, one line per monitored subdirectory,
in order, each of the form name, space, counter value.  The fopen mode
is "w", so these lines replace the whole previous file contents.
The start argument threads the running index idx. -/
def write_upload_failures_log (counters : Int → Int) :
    List String → Int → List String
  | [], _ => []
  | n :: ns, i =>
      (n ++ " " ++ toString (counters i)) :: write_upload_failures_log counters ns (i + 1)

/-- Outcome of the Phase A treatment of one regular file
(bismark-data-transmit.c lines 330-350): whether curl_send was called,
whether the file was unlinked, and whether it was appended to
files_to_sort for Phase B. -/
structure file_step where
  attempted : Bool
  deleted : Bool
  appended : Bool
deriving DecidableEq, Repr

/-- Phase A treatment of one regular file or symlink
(bismark-data-transmit.c lines 330-350).  If the age
current_time - st_ctime exceeds RETRY_INTERVAL_SECONDS the upload is
retried; on upload success the file is unlinked and, when the unlink
also succeeds, the loop continues without appending; in every other
case (no attempt, failed upload, failed unlink) the file is appended to
files_to_sort. -/
def phaseA_file (now : Int) (uploadOk unlinkOk : String → Bool)
    (path : String) (st_ctime : Int) : file_step :=
  if RETRY_INTERVAL_SECONDS < now - st_ctime then
    if uploadOk path then
      if unlinkOk path then
        { attempted := true, deleted := true, appended := false }
      else
        { attempted := true, deleted := false, appended := true }
    else
      { attempted := true, deleted := false, appended := true }
  else
    { attempted := false, deleted := false, appended := true }

/-- The upload_entry_t built by the upload_list_append call at
bismark-data-transmit.c lines 345-349 for a file of one directory.
The filename is the snprintf-joined absolute path and last_modified
and size are the stat snapshot.  upload_list.c never stores the fifth
argument idx into the index field (see upload_list_append above), so
the field value is taken from an oracle ent_index modelling the
uninitialized memory of the malloc-ed entry. -/
def mk_entry (ent_index : String → Int) (dirpath : String) (f : spool_file) :
    upload_entry_t :=
  { filename := join_paths dirpath f.name,
    last_modified := f.st_ctime,
    size := f.st_size,
    index := ent_index (join_paths dirpath f.name) }

/-- Phase A walk over the files of one directory (the readdir loop of
bismark-data-transmit.c lines 316-351).  Returns the entries appended
to files_to_sort from this directory, in readdir order, and the files
still present in the directory afterwards.  Files that are neither
regular nor symlinks are skipped but stay on disk. -/
def phaseA_dir (now : Int) (uploadOk unlinkOk : String → Bool)
    (ent_index : String → Int) (dirpath : String) :
    List spool_file → List upload_entry_t × List spool_file
  | [] => ([], [])
  | f :: fs =>
    let r := phaseA_dir now uploadOk unlinkOk ent_index dirpath fs
    if f.is_file then
      if (phaseA_file now uploadOk unlinkOk (join_paths dirpath f.name) f.st_ctime).deleted then
        (r.1, r.2)
      else
        (mk_entry ent_index dirpath f :: r.1, f :: r.2)
    else
      (r.1, f :: r.2)

/-- Phase A across all monitored directories (bismark-data-transmit.c
lines 305-355): entries are appended directory by directory in order.
Returns the combined files_to_sort contents and the directories with
their post-Phase-A contents. -/
def phaseA (now : Int) (uploadOk unlinkOk : String → Bool)
    (ent_index : String → Int) :
    List spool_dir → List upload_entry_t × List spool_dir
  | [] => ([], [])
  | d :: ds =>
    let r1 := phaseA_dir now uploadOk unlinkOk ent_index d.dirpath d.files
    let r2 := phaseA now uploadOk unlinkOk ent_index ds
    (r1.1 ++ r2.1, { d with files := r1.2 } :: r2.2)

/-- The eviction block of Phase B (bismark-data-transmit.c lines
362-374): unlink the entry; only if the unlink succeeds is
log_upload_failure called on the entry index and new_upload_failure
raised.  Returns the updated counters and whether the eviction
succeeded. -/
def evict_entry (unlinkOk : String → Bool) (counters : Int → Int)
    (e : upload_entry_t) : (Int → Int) × Bool :=
  if unlinkOk e.filename then (log_upload_failure counters e.index, true)
  else (counters, false)

/-- Result of the Phase B walk. -/
structure phaseB_result where
  kept : List upload_entry_t
  evicted : List upload_entry_t
  counters : Int → Int
  new_upload_failure : Bool

/-- Phase B quota walk (bismark-data-transmit.c lines 357-379) over the
sorted entries: each entry whose size would push total_bytes beyond
MAX_UPLOADS_BYTES is evicted (its size is not accumulated), every other
entry is kept and its size added to total_bytes. -/
def phaseB (unlinkOk : String → Bool) :
    List upload_entry_t → Nat → (Int → Int) → Bool → phaseB_result
  | [], _, counters, nf =>
    { kept := [], evicted := [], counters := counters, new_upload_failure := nf }
  | e :: rest, total_bytes, counters, nf =>
    if MAX_UPLOADS_BYTES < total_bytes + e.size then
      let ev := evict_entry unlinkOk counters e
      let r := phaseB unlinkOk rest total_bytes ev.1 (nf || ev.2)
      { kept := r.kept, evicted := e :: r.evicted,
        counters := r.counters, new_upload_failure := r.new_upload_failure }
    else
      let r := phaseB unlinkOk rest (total_bytes + e.size) counters nf
      { kept := e :: r.kept, evicted := r.evicted,
        counters := r.counters, new_upload_failure := r.new_upload_failure }

/-- Remove from every directory the files whose absolute path is among
the given unlinked paths (the disk effect of the successful unlinks of
Phase B). -/
def remove_paths (paths : List String) (ds : List spool_dir) : List spool_dir :=
  ds.map fun d =>
    { d with files := d.files.filter fun f => ¬ paths.contains (join_paths d.dirpath f.name) }

/-- The state the retry sweep reads and writes: the spool directories,
the failure_counters array and the contents of FAILURES_LOG. -/
structure sweep_state where
  dirs : List spool_dir
  failure_counters : Int → Int
  failures_log : List String

/-- Result of one retry_uploads firing: the new state together with the
kept and evicted entry lists of its Phase B and the new_upload_failure
flag. -/
structure sweep_result where
  state : sweep_state
  kept : List upload_entry_t
  evicted : List upload_entry_t
  new_upload_failure : Bool

/-- retry_uploads (bismark-data-transmit.c lines 299-388) on SIGALRM:
Phase A retries and rescans every directory into files_to_sort, the
list is sorted by last_modified descending, Phase B walks it
accumulating sizes and evicting what does not fit the quota, and if any
eviction succeeded the failure counters are rewritten wholesale to
FAILURES_LOG. -/
def retry_uploads (now : Int) (uploadOk unlinkOk : String → Bool)
    (ent_index : String → Int) (s : sweep_state) : sweep_result :=
  let pa := phaseA now uploadOk unlinkOk ent_index s.dirs
  let sorted := upload_list_sort pa.1
  let pb := phaseB unlinkOk sorted 0 s.failure_counters false
  let unlinked := (pb.evicted.filter fun e => unlinkOk e.filename).map upload_entry_t.filename
  { state :=
      { dirs := remove_paths unlinked pa.2,
        failure_counters := pb.counters,
        failures_log :=
          if pb.new_upload_failure then
            write_upload_failures_log pb.counters (s.dirs.map spool_dir.subdir) 0
          else s.failures_log },
    kept := pb.kept,
    evicted := pb.evicted,
    new_upload_failure := pb.new_upload_failure }

/-- The event-driven upload of one IN_MOVED_TO inotify event
(bismark-data-transmit.c lines 542-560): resolve the absolute path,
attempt the upload, and on success unlink the file (a failed unlink is
only logged).  Returns the number of curl_send calls made for the event
and the directory contents afterwards; on upload failure nothing on
disk is touched. -/
def handle_move_event (uploadOk unlinkOk : String → Bool) (d : spool_dir)
    (name : String) : Nat × List spool_file :=
  let path := join_paths d.dirpath name
  if uploadOk path then
    if unlinkOk path then (1, d.files.filter fun f => ¬ f.name = name)
    else (1, d.files)
  else (1, d.files)

/-- Position of the main control path (main, bismark-data-transmit.c
lines 522-569).  waiting: blocked in read on the inotify handle with
SIGALRM deliverable; batch: between the sigprocmask SIG_BLOCK at line
534 and the SIG_UNBLOCK at line 565, outside any transfer; transfer:
inside the curl_send call at line 551, still within the blocked
region. -/
inductive main_pc where
  | waiting
  | batch
  | transfer
deriving DecidableEq, Repr

/-- Position of the SIGALRM handler retry_uploads: idle when not
running, running while executing outside curl_send, h_transfer while
inside a curl_send issued by the sweep. -/
inductive handler_pc where
  | idle
  | running
  | h_transfer
deriving DecidableEq, Repr

/-- Combined control state of the process. -/
structure sys_state where
  pc : main_pc
  hs : handler_pc
deriving DecidableEq, Repr

/-- Small-step transition relation of the process.  Main-path steps fire
only while the handler is idle (a delivered signal suspends the main
path until the handler returns, and sigaction installs retry_uploads
with SIGALRM itself blocked during the handler, so the handler never
nests).  deliver_alarm requires the main path to be at waiting: the
sigprocmask pair at lines 534 and 565 keeps SIGALRM blocked at batch
and transfer, and a SIGALRM raised there stays pending until
SIG_UNBLOCK returns the main path to waiting. -/
inductive sys_step : sys_state → sys_state → Prop where
  | block_signals :
      sys_step { pc := .waiting, hs := .idle } { pc := .batch, hs := .idle }
  | begin_main_transfer :
      sys_step { pc := .batch, hs := .idle } { pc := .transfer, hs := .idle }
  | end_main_transfer :
      sys_step { pc := .transfer, hs := .idle } { pc := .batch, hs := .idle }
  | unblock_signals :
      sys_step { pc := .batch, hs := .idle } { pc := .waiting, hs := .idle }
  | deliver_alarm (p : main_pc) (h : p = .waiting) :
      sys_step { pc := p, hs := .idle } { pc := p, hs := .running }
  | begin_sweep_transfer (p : main_pc) :
      sys_step { pc := p, hs := .running } { pc := p, hs := .h_transfer }
  | end_sweep_transfer (p : main_pc) :
      sys_step { pc := p, hs := .h_transfer } { pc := p, hs := .running }
  | handler_return (p : main_pc) :
      sys_step { pc := p, hs := .running } { pc := p, hs := .idle }

/-- The initial state: main blocked in read, no handler running. -/
def sys_init : sys_state := { pc := .waiting, hs := .idle }

/-- States reachable from process start. -/
def sys_reachable (s : sys_state) : Prop :=
  Relation.ReflTransGen sys_step sys_init s

theorem sys_step_inv (s t : sys_state)
    (h : sys_step s t) (hi : s.hs ≠ .idle → s.pc = .waiting) :
    t.hs ≠ .idle → t.pc = .waiting := by
  cases h with
  | block_signals => intro hne; exact absurd rfl hne
  | begin_main_transfer => intro hne; exact absurd rfl hne
  | end_main_transfer => intro hne; exact absurd rfl hne
  | unblock_signals => intro hne; exact absurd rfl hne
  | deliver_alarm p hp => intro _; exact hp
  | begin_sweep_transfer p => intro _; exact hi (by simp)
  | end_sweep_transfer p => intro _; exact hi (by simp)
  | handler_return p => intro hne; exact absurd rfl hne

theorem sys_reachable_inv (s : sys_state) (h : sys_reachable s) :
    s.hs ≠ .idle → s.pc = .waiting := by
  induction h with
  | refl => intro hne; exact absurd rfl hne
  | tail _ hstep ih => exact sys_step_inv _ _ hstep ih

/-- Generic Phase B bound: along the walk the running total plus the
total size of everything the walk keeps stays within the quota. -/
theorem phaseB_kept_le (unlinkOk : String → Bool) (l : List upload_entry_t)
    (total_bytes : Nat) (counters : Int → Int) (nf : Bool)
    (h : total_bytes ≤ MAX_UPLOADS_BYTES) :
    total_bytes
      + ((phaseB unlinkOk l total_bytes counters nf).kept.map upload_entry_t.size).sum
      ≤ MAX_UPLOADS_BYTES := by
  induction l generalizing total_bytes counters nf with
  | nil => simpa [phaseB]
  | cons e rest ih =>
    by_cases hb : MAX_UPLOADS_BYTES < total_bytes + e.size
    · simp only [phaseB, if_pos hb]
      exact ih total_bytes _ _ h
    · simp only [phaseB, if_neg hb]
      have hle : total_bytes + e.size ≤ MAX_UPLOADS_BYTES := Nat.le_of_not_lt hb
      have := ih (total_bytes + e.size) counters nf hle
      simp only [List.map_cons, List.sum_cons]
      omega

/-- If everything fits the quota, Phase B keeps every entry, evicts
nothing and leaves the counters and the flag untouched. -/
theorem phaseB_no_evict (unlinkOk : String → Bool) (l : List upload_entry_t)
    (total_bytes : Nat) (counters : Int → Int) (nf : Bool)
    (h : total_bytes + (l.map upload_entry_t.size).sum ≤ MAX_UPLOADS_BYTES) :
    phaseB unlinkOk l total_bytes counters nf =
      { kept := l, evicted := [], counters := counters, new_upload_failure := nf } := by
  induction l generalizing total_bytes with
  | nil => simp [phaseB]
  | cons e rest ih =>
    simp only [List.map_cons, List.sum_cons] at h
    have hb : ¬ MAX_UPLOADS_BYTES < total_bytes + e.size := by omega
    simp only [phaseB, if_neg hb]
    rw [ih (total_bytes + e.size) (by omega)]

/-- The kept and evicted lists of Phase B partition its input. -/
theorem phaseB_perm (unlinkOk : String → Bool) (l : List upload_entry_t)
    (total_bytes : Nat) (counters : Int → Int) (nf : Bool) :
    List.Perm ((phaseB unlinkOk l total_bytes counters nf).kept
      ++ (phaseB unlinkOk l total_bytes counters nf).evicted) l := by
  induction l generalizing total_bytes counters nf with
  | nil => simp [phaseB]
  | cons e rest ih =>
    by_cases hb : MAX_UPLOADS_BYTES < total_bytes + e.size
    · simp only [phaseB, if_pos hb]
      have h1 := ih total_bytes (evict_entry unlinkOk counters e).1
        (nf || (evict_entry unlinkOk counters e).2)
      exact List.Perm.trans List.perm_middle (h1.cons e)
    · simp only [phaseB, if_neg hb]
      simpa using ((ih (total_bytes + e.size) counters nf).cons e)

/-- Every entry kept by the Phase B walk started at running total
total_bytes fits the quota even on top of that starting total. -/
theorem phaseB_kept_size (unlinkOk : String → Bool) (l : List upload_entry_t)
    (total_bytes : Nat) (counters : Int → Int) (nf : Bool) :
    ∀ r ∈ (phaseB unlinkOk l total_bytes counters nf).kept,
      total_bytes + r.size ≤ MAX_UPLOADS_BYTES := by
  induction l generalizing total_bytes counters nf with
  | nil => simp [phaseB]
  | cons e rest ih =>
    by_cases hb : MAX_UPLOADS_BYTES < total_bytes + e.size
    · simp only [phaseB, if_pos hb]
      exact ih total_bytes _ _
    · simp only [phaseB, if_neg hb]
      intro r hr
      rcases List.mem_cons.mp hr with rfl | hr2
      · omega
      · have := ih (total_bytes + e.size) counters nf r hr2
        omega

/-- Entries evicted by Phase B come from its input. -/
theorem phaseB_evicted_subset (unlinkOk : String → Bool)
    (l : List upload_entry_t) (total_bytes : Nat) (counters : Int → Int)
    (nf : Bool) :
    ∀ e ∈ (phaseB unlinkOk l total_bytes counters nf).evicted, e ∈ l := by
  intro e he
  exact (phaseB_perm unlinkOk l total_bytes counters nf).mem_iff.mp
    (List.mem_append.mpr (Or.inr he))

/-- Order relation produced by the Phase B walk on a descending-sorted
backlog, generalized over the starting total. -/
theorem phaseB_evict_kept_aux (unlinkOk : String → Bool)
    (l : List upload_entry_t) (total_bytes : Nat) (counters : Int → Int)
    (nf : Bool) :
    sorted_desc l →
    ∀ e ∈ (phaseB unlinkOk l total_bytes counters nf).evicted,
      ∀ r ∈ (phaseB unlinkOk l total_bytes counters nf).kept,
        e.last_modified ≤ r.last_modified ∨ r.size < e.size := by
  induction l generalizing total_bytes counters nf with
  | nil => intro _; simp [phaseB]
  | cons e0 rest ih =>
    intro hs
    rcases List.pairwise_cons.mp hs with ⟨h0, hrest⟩
    by_cases hb : MAX_UPLOADS_BYTES < total_bytes + e0.size
    · simp only [phaseB, if_pos hb]
      intro e he r hr
      rcases List.mem_cons.mp he with rfl | he2
      · have hk := phaseB_kept_size unlinkOk rest total_bytes
          (evict_entry unlinkOk counters e).1
          (nf || (evict_entry unlinkOk counters e).2) r hr
        right
        omega
      · exact ih total_bytes _ _ hrest e he2 r hr
    · simp only [phaseB, if_neg hb]
      intro e he r hr
      rcases List.mem_cons.mp hr with rfl | hr2
      · left
        exact h0 e (phaseB_evicted_subset unlinkOk rest (total_bytes + r.size)
          counters nf e he)
      · exact ih (total_bytes + e0.size) counters nf hrest e he r hr2

/-- Claim C1 helper (amended): in the Phase B walk over a backlog sorted by
last-modified time descending, every evicted file is no newer than
every retained file, except that a strictly smaller file may be
retained after a larger, newer file has already been evicted; that is,
for every evicted entry e and retained entry r, either e is no newer
than r, or r is strictly smaller than e. -/
theorem C1_eviction_order (unlinkOk : String → Bool)
    (l : List upload_entry_t) (counters : Int → Int)
    (hs : sorted_desc l) :
    ∀ e ∈ (phaseB unlinkOk l 0 counters false).evicted,
      ∀ r ∈ (phaseB unlinkOk l 0 counters false).kept,
        e.last_modified ≤ r.last_modified ∨ r.size < e.size :=
  phaseB_evict_kept_aux unlinkOk l 0 counters false hs

/-- Concrete sorted backlog on which the walk keeps an older file after
evicting a newer one: sizes 4500000, 1000000, 500000 against the
5000000-byte quota. -/
def c1_entries : List upload_entry_t :=
  [{ filename := "a", last_modified := 10, size := 4500000, index := 0 },
   { filename := "b", last_modified := 5, size := 1000000, index := 0 },
   { filename := "c", last_modified := 1, size := 500000, index := 0 }]

/-- Witness for C1_eviction_order at a concrete sorted backlog. -/
theorem C1_eviction_order_witness :
    sorted_desc c1_entries ∧
    (∀ e ∈ (phaseB (fun _ => true) c1_entries 0 (fun _ => 0) false).evicted,
      ∀ r ∈ (phaseB (fun _ => true) c1_entries 0 (fun _ => 0) false).kept,
        e.last_modified ≤ r.last_modified ∨ r.size < e.size) :=
  ⟨by decide, C1_eviction_order (fun _ => true) c1_entries (fun _ => 0) (by decide)⟩

/-- One spool directory holding three regular files, all younger than
the retry threshold at time 100, so Phase A attempts nothing and all
three reach Phase B. -/
def c1_dir : spool_dir :=
  { subdir := "active",
    dirpath := "/tmp/bismark-uploads/active",
    files := [{ name := "f1", st_ctime := 10, st_size := 4500000, is_file := true },
              { name := "f2", st_ctime := 5, st_size := 1000000, is_file := true },
              { name := "f3", st_ctime := 1, st_size := 500000, is_file := true }] }

/-- Initial sweep state for the C1 counterexample. -/
def c1_state : sweep_state :=
  { dirs := [c1_dir], failure_counters := fun _ => 0, failures_log := [] }

/-- The C1 counterexample sweep: uploads all fail, deletions succeed. -/
def c1_sweep : sweep_result :=
  retry_uploads 100 (fun _ => false) (fun _ => true) (fun _ => 0) c1_state

/-- Counterexample to claim C1 as stated: in this sweep the file with
last-modified time 5 is evicted while the file with last-modified time
1 is retained, so an evicted file is strictly newer than a retained
one. -/
theorem C1_counterexample :
    ¬ (∀ e ∈ c1_sweep.evicted, ∀ r ∈ c1_sweep.kept,
        e.last_modified ≤ r.last_modified) := by
  decide

/-- Claim C3: after any sweep, the total byte size of the retained
backlog entries (the files kept by the Phase B walk, i.e. all files
that existed at the scan and were neither re-uploaded in Phase A nor
evicted in Phase B) is at most MAX_UPLOADS_BYTES. -/
theorem C3_quota_invariant (now : Int) (uploadOk unlinkOk : String → Bool)
    (ent_index : String → Int) (s : sweep_state) :
    (((retry_uploads now uploadOk unlinkOk ent_index s).kept).map
      upload_entry_t.size).sum ≤ MAX_UPLOADS_BYTES := by
  have h := phaseB_kept_le unlinkOk
    (upload_list_sort (phaseA now uploadOk unlinkOk ent_index s.dirs).1)
    0 s.failure_counters false (Nat.zero_le _)
  simpa [retry_uploads] using h

/-- Claim C4: in Phase A, a file whose age now - st_ctime is at most
RETRY_INTERVAL_SECONDS (in particular age 179 = threshold - 1) gets no
upload attempt but is still appended to the Phase B backlog, while a
file whose age exceeds the threshold (in particular age 181 =
threshold + 1) gets an upload attempt. -/
theorem C4_retry_threshold (now st_ctime : Int)
    (uploadOk unlinkOk : String → Bool) (path : String) :
    (now - st_ctime ≤ RETRY_INTERVAL_SECONDS →
      (phaseA_file now uploadOk unlinkOk path st_ctime).attempted = false ∧
      (phaseA_file now uploadOk unlinkOk path st_ctime).appended = true) ∧
    (RETRY_INTERVAL_SECONDS < now - st_ctime →
      (phaseA_file now uploadOk unlinkOk path st_ctime).attempted = true) := by
  constructor
  · intro h
    have hn : ¬ RETRY_INTERVAL_SECONDS < now - st_ctime := by omega
    simp [phaseA_file, hn]
  · intro h
    simp only [phaseA_file, if_pos h]
    by_cases hu : uploadOk path <;> by_cases hl : unlinkOk path <;> simp [hu, hl]

/-- Witness for C4_retry_threshold at ages 179 and 181. -/
theorem C4_retry_threshold_witness :
    ((179 : Int) - 0 ≤ RETRY_INTERVAL_SECONDS ∧
      (phaseA_file 179 (fun _ => true) (fun _ => true) "p" 0).attempted = false ∧
      (phaseA_file 179 (fun _ => true) (fun _ => true) "p" 0).appended = true) ∧
    (RETRY_INTERVAL_SECONDS < (181 : Int) - 0 ∧
      (phaseA_file 181 (fun _ => true) (fun _ => true) "p" 0).attempted = true) :=
  ⟨⟨by decide,
    (C4_retry_threshold 179 0 (fun _ => true) (fun _ => true) "p").1 (by decide)⟩,
   ⟨by decide,
    (C4_retry_threshold 181 0 (fun _ => true) (fun _ => true) "p").2 (by decide)⟩⟩

/-- Claim C9: in every reachable state of the process, the main event
path and the SIGALRM retry sweeper are never both inside a curl
transfer: the sigprocmask SIG_BLOCK and SIG_UNBLOCK pair around the
event-driven upload-and-delete sequence masks the sweeper for its
duration and re-enables it afterwards, so at most one transfer is ever
in flight on the shared curl handle. -/
theorem C9_no_interleaved_transfers (s : sys_state) (h : sys_reachable s) :
    ¬ (s.pc = .transfer ∧ s.hs = .h_transfer) := by
  intro hc
  have hne : s.hs ≠ .idle := by
    rw [hc.2]
    exact fun hh => by exact absurd hh (by decide)
  have h2 := sys_reachable_inv s h hne
  rw [hc.1] at h2
  exact absurd h2 (by decide)

/-- Witness for C9_no_interleaved_transfers at the initial state. -/
theorem C9_no_interleaved_transfers_witness :
    sys_reachable sys_init ∧
    ¬ (sys_init.pc = .transfer ∧ sys_init.hs = .h_transfer) :=
  ⟨Relation.ReflTransGen.refl,
   C9_no_interleaved_transfers sys_init Relation.ReflTransGen.refl⟩

theorem string_take_of_length_le (s : String) (n : Nat) (h : s.length ≤ n) :
    s.take n = s := by
  rw [String.take_eq]
  cases s with
  | mk data =>
    have hd : data.length ≤ n := h
    simp [List.take_of_length_le hd]

/-- Claim C10: on an initialized upload list (allocated entries buffer
holding the already stored entries, length within capacity), a
successful upload_list_append returns 0, increases length by exactly
one, stores the given filename, last-modified time and size in the new
last entry, leaves all previously stored entries unchanged, keeps
length within capacity, and doubles the capacity exactly when the list
was full. -/
theorem C10_append_spec (l : upload_list_t) (es : List upload_entry_t)
    (fn : String) (lm : Int) (sz : Nat) (ui : Int)
    (hes : l.entries = some es) (hlen : l.length ≤ l.capacity)
    (hcap : 1 ≤ l.capacity) (hfn : fn.length ≤ PATH_MAX) :
    (upload_list_append l fn lm sz ui).2 = 0 ∧
    (upload_list_append l fn lm sz ui).1.length = l.length + 1 ∧
    (upload_list_append l fn lm sz ui).1.entries =
      some (es ++ [{ filename := fn, last_modified := lm, size := sz, index := ui }]) ∧
    (upload_list_append l fn lm sz ui).1.length
      ≤ (upload_list_append l fn lm sz ui).1.capacity ∧
    (l.length = l.capacity →
      (upload_list_append l fn lm sz ui).1.capacity = 2 * l.capacity) := by
  simp only [upload_list_append, hes, string_take_of_length_le fn PATH_MAX hfn]
  refine ⟨trivial, trivial, trivial, ?_, ?_⟩
  · by_cases hfull : l.capacity ≤ l.length
    · simp only [if_pos hfull]
      omega
    · simp only [if_neg hfull]
      omega
  · intro hfull
    rw [if_pos (le_of_eq hfull.symm)]

/-- Witness for C10_append_spec: appending to a freshly initialized
list. -/
theorem C10_append_spec_witness :
    (upload_list_init.entries = some [] ∧
      upload_list_init.length ≤ upload_list_init.capacity ∧
      1 ≤ upload_list_init.capacity ∧
      ("/tmp/bismark-uploads/active/f1").length ≤ PATH_MAX) ∧
    ((upload_list_append upload_list_init "/tmp/bismark-uploads/active/f1" 7 42 0).2 = 0 ∧
     (upload_list_append upload_list_init "/tmp/bismark-uploads/active/f1" 7 42 0).1.length
       = upload_list_init.length + 1 ∧
     (upload_list_append upload_list_init "/tmp/bismark-uploads/active/f1" 7 42 0).1.entries =
       some ([] ++ [{ filename := "/tmp/bismark-uploads/active/f1",
                      last_modified := 7, size := 42, index := 0 }]) ∧
     (upload_list_append upload_list_init "/tmp/bismark-uploads/active/f1" 7 42 0).1.length
       ≤ (upload_list_append upload_list_init "/tmp/bismark-uploads/active/f1" 7 42 0).1.capacity ∧
     (upload_list_init.length = upload_list_init.capacity →
       (upload_list_append upload_list_init "/tmp/bismark-uploads/active/f1" 7 42 0).1.capacity
         = 2 * upload_list_init.capacity)) :=
  ⟨⟨rfl, by decide, by decide, by decide⟩,
   C10_append_spec upload_list_init [] "/tmp/bismark-uploads/active/f1" 7 42 0
     rfl (by decide) (by decide) (by decide)⟩

/-- Claim C5: for every upload attempt, event-driven (handle_move_event)
or Phase A retry (phaseA_file): on transfer success the file is deleted
from its spool directory (given the unlink succeeds), and on transfer
failure the directory contents are left exactly as they were, with the
file record (including its last-status-change time) untouched, and
exactly one transfer attempt is made with no immediate re-attempt. -/
theorem C5_upload_outcome (uploadOk unlinkOk : String → Bool)
    (d : spool_dir) (name : String) :
    ((uploadOk (join_paths d.dirpath name) = true ∧
      unlinkOk (join_paths d.dirpath name) = true) →
      (handle_move_event uploadOk unlinkOk d name).2 =
        d.files.filter fun f => ¬ f.name = name) ∧
    (uploadOk (join_paths d.dirpath name) = false →
      (handle_move_event uploadOk unlinkOk d name).2 = d.files ∧
      (handle_move_event uploadOk unlinkOk d name).1 = 1) ∧
    (∀ (now st_ctime : Int) (path : String),
      uploadOk path = false →
      (phaseA_file now uploadOk unlinkOk path st_ctime).deleted = false ∧
      (phaseA_file now uploadOk unlinkOk path st_ctime).appended = true) ∧
    (∀ (now st_ctime : Int) (path : String),
      RETRY_INTERVAL_SECONDS < now - st_ctime →
      uploadOk path = true → unlinkOk path = true →
      (phaseA_file now uploadOk unlinkOk path st_ctime).deleted = true) := by
  refine ⟨?_, ?_, ?_, ?_⟩
  · rintro ⟨hu, hl⟩
    simp [handle_move_event, hu, hl]
  · intro hu
    simp [handle_move_event, hu]
  · intro now st_ctime path hu
    by_cases ha : RETRY_INTERVAL_SECONDS < now - st_ctime <;>
      simp [phaseA_file, ha, hu]
  · intro now st_ctime path ha hu hl
    simp [phaseA_file, ha, hu, hl]

/-- Concrete directory for the C5 witness. -/
def c5_dir : spool_dir :=
  { subdir := "active",
    dirpath := "/up/active",
    files := [{ name := "f1", st_ctime := 3, st_size := 9, is_file := true }] }

/-- Witness for C5_upload_outcome: a successful event upload deletes the
file, a failed one leaves the directory untouched after exactly one
attempt, and the Phase A branches behave alike. -/
theorem C5_upload_outcome_witness :
    (((fun _ => true) : String → Bool) (join_paths c5_dir.dirpath "f1") = true ∧
      ((fun _ => true) : String → Bool) (join_paths c5_dir.dirpath "f1") = true ∧
      (handle_move_event (fun _ => true) (fun _ => true) c5_dir "f1").2 =
        c5_dir.files.filter fun f => ¬ f.name = "f1") ∧
    (((fun _ => false) : String → Bool) (join_paths c5_dir.dirpath "f1") = false ∧
      (handle_move_event (fun _ => false) (fun _ => true) c5_dir "f1").2 = c5_dir.files ∧
      (handle_move_event (fun _ => false) (fun _ => true) c5_dir "f1").1 = 1) :=
  ⟨⟨rfl, rfl,
    (C5_upload_outcome (fun _ => true) (fun _ => true) c5_dir "f1").1 ⟨rfl, rfl⟩⟩,
   ⟨rfl,
    (C5_upload_outcome (fun _ => false) (fun _ => true) c5_dir "f1").2.1 rfl⟩⟩

/-- Claim C6: in the Phase B eviction block, the failure counter at the
entry index is incremented exactly when the unlink of the evicted file
succeeds (all other counters stay as they were), and when the unlink
fails all counters, in particular the one of the file owning directory,
are left unchanged. -/
theorem C6_eviction_counter (unlinkOk : String → Bool)
    (counters : Int → Int) (e : upload_entry_t) :
    (unlinkOk e.filename = true →
      (evict_entry unlinkOk counters e).1 e.index = counters e.index + 1 ∧
      (∀ j, j ≠ e.index → (evict_entry unlinkOk counters e).1 j = counters j) ∧
      (evict_entry unlinkOk counters e).2 = true) ∧
    (unlinkOk e.filename = false →
      (evict_entry unlinkOk counters e).1 = counters ∧
      (evict_entry unlinkOk counters e).2 = false) := by
  constructor
  · intro hu
    simp only [evict_entry, if_pos hu]
    refine ⟨by simp [log_upload_failure], ?_, trivial⟩
    intro j hj
    simp [log_upload_failure, hj]
  · intro hu
    rw [evict_entry, if_neg (by simp [hu])]
    exact ⟨rfl, rfl⟩

/-- Witness for C6_eviction_counter: both unlink outcomes at a concrete
entry and counter bank. -/
theorem C6_eviction_counter_witness :
    (((fun _ => true) : String → Bool) "/up/a/f" = true ∧
      (evict_entry (fun _ => true) (fun _ => 0)
        { filename := "/up/a/f", last_modified := 1, size := 2, index := 3 }).1 3 = 0 + 1) ∧
    (((fun _ => false) : String → Bool) "/up/a/f" = false ∧
      (evict_entry (fun _ => false) (fun _ => 0)
        { filename := "/up/a/f", last_modified := 1, size := 2, index := 3 }).1 = fun _ => 0) :=
  ⟨⟨rfl,
    ((C6_eviction_counter (fun _ => true) (fun _ => 0)
      { filename := "/up/a/f", last_modified := 1, size := 2, index := 3 }).1 rfl).1⟩,
   ⟨rfl,
    ((C6_eviction_counter (fun _ => false) (fun _ => 0)
      { filename := "/up/a/f", last_modified := 1, size := 2, index := 3 }).2 rfl).1⟩⟩

/-- Two spool directories for the C2 scenario: directory "a" has index
0 and is empty, directory "b" has index 1 and holds one file larger
than the whole quota, so Phase B must evict it. -/
def c2_state : sweep_state :=
  { dirs := [{ subdir := "a", dirpath := "/up/a", files := [] },
             { subdir := "b", dirpath := "/up/b",
               files := [{ name := "big", st_ctime := 1, st_size := 6000000,
                           is_file := true }] }],
    failure_counters := fun _ => 0,
    failures_log := [] }

/-- The C2 sweep at time 100: no upload is attempted (age 99 is below
the threshold), deletions succeed, and the uninitialized index memory
of the appended entry happens to hold 0. -/
def c2_sweep : sweep_result :=
  retry_uploads 100 (fun _ => false) (fun _ => true) (fun _ => 0) c2_state

/-- Claim C2 evaluated at the failing input: the file of directory "b"
(directory index 1) is evicted and its deletion succeeds, yet the
counter that is incremented is failure_counters[0] and the counter of
the owning directory stays 0, because upload_list_append in
upload_list.c never stores the directory index passed by retry_uploads
into the entry (the index field keeps whatever the malloc-ed memory
held, here 0). -/
theorem C2_wrong_counter_on_eviction :
    c2_sweep.evicted.map upload_entry_t.filename = ["/up/b/big"] ∧
    c2_sweep.new_upload_failure = true ∧
    c2_sweep.state.failure_counters 1 = 0 ∧
    c2_sweep.state.failure_counters 0 = 1 := by
  decide

/-- The success flag of the eviction block equals the unlink outcome. -/
theorem evict_entry_flag (unlinkOk : String → Bool) (counters : Int → Int)
    (e : upload_entry_t) :
    (evict_entry unlinkOk counters e).2 = unlinkOk e.filename := by
  by_cases h : unlinkOk e.filename = true
  · simp [evict_entry, h]
  · simp only [Bool.not_eq_true] at h
    simp [evict_entry, h]

/-- The new_upload_failure flag of Phase B is raised exactly when the
accumulator was already raised or some evicted entry was successfully
unlinked. -/
theorem phaseB_nf_iff (unlinkOk : String → Bool) (l : List upload_entry_t)
    (total_bytes : Nat) (counters : Int → Int) (nf : Bool) :
    (phaseB unlinkOk l total_bytes counters nf).new_upload_failure = true ↔
      (nf = true ∨ ∃ e ∈ (phaseB unlinkOk l total_bytes counters nf).evicted,
        unlinkOk e.filename = true) := by
  induction l generalizing total_bytes counters nf with
  | nil => simp [phaseB]
  | cons e rest ih =>
    by_cases hb : MAX_UPLOADS_BYTES < total_bytes + e.size
    · simp only [phaseB, if_pos hb]
      rw [ih]
      simp only [evict_entry_flag, List.mem_cons, Bool.or_eq_true]
      constructor
      · rintro (⟨hnf | hev⟩ | ⟨x, hx, hux⟩)
        · exact Or.inl hnf
        · exact Or.inr ⟨e, Or.inl rfl, hev⟩
        · exact Or.inr ⟨x, Or.inr hx, hux⟩
      · rintro (hnf | ⟨x, (rfl | hx), hux⟩)
        · exact Or.inl (Or.inl hnf)
        · exact Or.inl (Or.inr hux)
        · exact Or.inr ⟨x, hx, hux⟩
    · simp only [phaseB, if_neg hb]
      exact ih (total_bytes + e.size) counters nf

/-- Default line used with List.getD when reading the failure report. -/
def log_line_fallback : String := ""

theorem write_upload_failures_log_length (counters : Int → Int)
    (names : List String) (i : Int) :
    (write_upload_failures_log counters names i).length = names.length := by
  induction names generalizing i with
  | nil => simp [write_upload_failures_log]
  | cons n ns ih => simp [write_upload_failures_log, ih]

theorem write_upload_failures_log_getD (counters : Int → Int)
    (names : List String) (i : Int) (j : Nat) (hj : j < names.length) :
    (write_upload_failures_log counters names i).getD j log_line_fallback =
      names.getD j log_line_fallback ++ " " ++ toString (counters (i + j)) := by
  induction names generalizing i j with
  | nil => simp at hj
  | cons n ns ih =>
    cases j with
    | zero => simp [write_upload_failures_log]
    | succ j =>
      simp only [write_upload_failures_log, List.getD_cons_succ]
      rw [ih (i + 1) j (by simpa using hj)]
      have : i + 1 + (j : Int) = i + ((j : Int) + 1) := by omega
      simp [this]

/-- Claim C7: the failure report is rewritten exactly when at least one
eviction succeeded during the sweep (the new_upload_failure flag), the
rewrite replaces the whole file with the lines generated from all
directories (one line per monitored subdirectory, in order, of the form
name, space, counter), and without a successful eviction the report is
left untouched. -/
theorem C7_failure_report (now : Int) (uploadOk unlinkOk : String → Bool)
    (ent_index : String → Int) (s : sweep_state) :
    ((retry_uploads now uploadOk unlinkOk ent_index s).new_upload_failure = true ↔
      ∃ e ∈ (retry_uploads now uploadOk unlinkOk ent_index s).evicted,
        unlinkOk e.filename = true) ∧
    ((retry_uploads now uploadOk unlinkOk ent_index s).new_upload_failure = true →
      (retry_uploads now uploadOk unlinkOk ent_index s).state.failures_log =
        write_upload_failures_log
          (retry_uploads now uploadOk unlinkOk ent_index s).state.failure_counters
          (s.dirs.map spool_dir.subdir) 0 ∧
      (retry_uploads now uploadOk unlinkOk ent_index s).state.failures_log.length
        = s.dirs.length ∧
      (∀ j : Nat, j < s.dirs.length →
        (retry_uploads now uploadOk unlinkOk ent_index s).state.failures_log.getD
            j log_line_fallback =
          (s.dirs.map spool_dir.subdir).getD j log_line_fallback ++ " " ++
            toString
              ((retry_uploads now uploadOk unlinkOk ent_index s).state.failure_counters j))) ∧
    ((retry_uploads now uploadOk unlinkOk ent_index s).new_upload_failure = false →
      (retry_uploads now uploadOk unlinkOk ent_index s).state.failures_log
        = s.failures_log) := by
  have hiff := phaseB_nf_iff unlinkOk
    (upload_list_sort (phaseA now uploadOk unlinkOk ent_index s.dirs).1)
    0 s.failure_counters false
  refine ⟨?_, ?_, ?_⟩
  · simp only [retry_uploads]
    simpa using hiff
  · intro h
    simp only [retry_uploads] at h ⊢
    rw [if_pos h]
    refine ⟨rfl, ?_, ?_⟩
    · simp [write_upload_failures_log_length]
    · intro j hj
      rw [write_upload_failures_log_getD _ _ 0 j (by simpa using hj)]
      simp
  · intro h
    simp only [retry_uploads] at h ⊢
    rw [if_neg (by simp [h])]

/-- One spool directory holding a file larger than the whole quota, for
the C7 witness: its eviction must succeed and rewrite the report. -/
def c7_state : sweep_state :=
  { dirs := [{ subdir := "w", dirpath := "/up/w",
               files := [{ name := "huge", st_ctime := 2, st_size := 5000001,
                           is_file := true }] }],
    failure_counters := fun _ => 0,
    failures_log := ["stale"] }

/-- Witness for C7_failure_report at the c7_state sweep. -/
theorem C7_failure_report_witness :
    ((retry_uploads 50 (fun _ => false) (fun _ => true) (fun _ => 0)
        c7_state).new_upload_failure = true ∧
      ∃ e ∈ (retry_uploads 50 (fun _ => false) (fun _ => true) (fun _ => 0)
        c7_state).evicted,
        ((fun _ => true) : String → Bool) e.filename = true) ∧
    ((retry_uploads 50 (fun _ => false) (fun _ => true) (fun _ => 0)
        c7_state).state.failures_log =
      write_upload_failures_log
        (retry_uploads 50 (fun _ => false) (fun _ => true) (fun _ => 0)
          c7_state).state.failure_counters
        (c7_state.dirs.map spool_dir.subdir) 0) ∧
    ((retry_uploads 50 (fun _ => false) (fun _ => true) (fun _ => 0)
        c7_state).state.failures_log.getD 0 log_line_fallback =
      (c7_state.dirs.map spool_dir.subdir).getD 0 log_line_fallback ++ " " ++
        toString
          ((retry_uploads 50 (fun _ => false) (fun _ => true) (fun _ => 0)
            c7_state).state.failure_counters 0)) := by
  have h := C7_failure_report 50 (fun _ => false) (fun _ => true) (fun _ => 0) c7_state
  refine ⟨⟨by decide, h.1.mp (by decide)⟩, (h.2.1 (by decide)).1, ?_⟩
  have h2 := (h.2.1 (by decide)).2.2 0 (by decide)
  simpa using h2

/-- All absolute paths of the files of the given directories. -/
def all_paths (ds : List spool_dir) : List String :=
  ds.foldr (fun d acc => d.files.map (fun f => join_paths d.dirpath f.name) ++ acc) []

/-- The absolute path and byte size of every regular file (or symlink)
of the given directories. -/
def reg_pairs (ds : List spool_dir) : List (String × Nat) :=
  ds.foldr
    (fun d acc =>
      (d.files.filter (fun f => f.is_file)).map
        (fun f => (join_paths d.dirpath f.name, f.st_size)) ++ acc)
    []

/-- The path and size recorded in a backlog entry. -/
def epair (e : upload_entry_t) : String × Nat :=
  (e.filename, e.size)

/-- When no upload succeeds, Phase A deletes nothing: every directory
keeps exactly its files and the backlog receives every regular file. -/
theorem phaseA_dir_noup (now : Int) (uploadOk unlinkOk : String → Bool)
    (ent_index : String → Int) (dirpath : String) (fs : List spool_file)
    (hup : ∀ p, uploadOk p = false) :
    phaseA_dir now uploadOk unlinkOk ent_index dirpath fs =
      ((fs.filter (fun f => f.is_file)).map (mk_entry ent_index dirpath), fs) := by
  induction fs with
  | nil => simp [phaseA_dir]
  | cons f fs ih =>
    have hdel : (phaseA_file now uploadOk unlinkOk (join_paths dirpath f.name)
        f.st_ctime).deleted = false := by
      unfold phaseA_file
      by_cases ha : RETRY_INTERVAL_SECONDS < now - f.st_ctime <;>
        simp [ha, hup (join_paths dirpath f.name)]
    by_cases hf : f.is_file = true
    · simp [phaseA_dir, hf, hdel, ih]
    · simp only [Bool.not_eq_true] at hf
      simp [phaseA_dir, hf, ih]

/-- Phase A over all directories when no upload succeeds. -/
theorem phaseA_noup (now : Int) (uploadOk unlinkOk : String → Bool)
    (ent_index : String → Int) (ds : List spool_dir)
    (hup : ∀ p, uploadOk p = false) :
    phaseA now uploadOk unlinkOk ent_index ds =
      (ds.foldr
        (fun d acc =>
          (d.files.filter (fun f => f.is_file)).map (mk_entry ent_index d.dirpath) ++ acc)
        [], ds) := by
  induction ds with
  | nil => simp [phaseA]
  | cons d ds ih =>
    simp only [phaseA, phaseA_dir_noup now uploadOk unlinkOk ent_index d.dirpath d.files hup, ih]
    rfl

theorem reg_pairs_cons (d : spool_dir) (ds : List spool_dir) :
    reg_pairs (d :: ds) =
      (d.files.filter (fun f => f.is_file)).map
        (fun f => (join_paths d.dirpath f.name, f.st_size)) ++ reg_pairs ds := rfl

theorem all_paths_cons (d : spool_dir) (ds : List spool_dir) :
    all_paths (d :: ds) =
      d.files.map (fun f => join_paths d.dirpath f.name) ++ all_paths ds := rfl

theorem phaseA_dir_files_sublist (now : Int) (uploadOk unlinkOk : String → Bool)
    (ent_index : String → Int) (dirpath : String) (fs : List spool_file) :
    List.Sublist (phaseA_dir now uploadOk unlinkOk ent_index dirpath fs).2 fs := by
  induction fs with
  | nil => simp [phaseA_dir]
  | cons f fs ih =>
    by_cases hf : f.is_file = true
    · by_cases hd : (phaseA_file now uploadOk unlinkOk (join_paths dirpath f.name)
          f.st_ctime).deleted = true
      · simp only [phaseA_dir, hf, if_true, hd]
        exact ih.cons f
      · simp only [Bool.not_eq_true] at hd
        simp only [phaseA_dir, hf, if_true, hd, Bool.false_eq_true, if_false]
        exact ih.cons₂ f
    · simp only [Bool.not_eq_true] at hf
      simp only [phaseA_dir, hf, Bool.false_eq_true, if_false]
      exact ih.cons₂ f

theorem phaseA_dir_entry_mem (now : Int) (uploadOk unlinkOk : String → Bool)
    (ent_index : String → Int) (dirpath : String) (fs : List spool_file) :
    ∀ f ∈ (phaseA_dir now uploadOk unlinkOk ent_index dirpath fs).2,
      f.is_file = true →
      mk_entry ent_index dirpath f ∈ (phaseA_dir now uploadOk unlinkOk ent_index dirpath fs).1 := by
  induction fs with
  | nil => simp [phaseA_dir]
  | cons g fs ih =>
    intro f hf hreg
    by_cases hg : g.is_file = true
    · by_cases hd : (phaseA_file now uploadOk unlinkOk (join_paths dirpath g.name)
          g.st_ctime).deleted = true
      · simp only [phaseA_dir, hg, if_true, hd] at hf ⊢
        exact ih f hf hreg
      · simp only [Bool.not_eq_true] at hd
        simp only [phaseA_dir, hg, if_true, hd, Bool.false_eq_true, if_false] at hf ⊢
        rcases List.mem_cons.mp hf with rfl | hf2
        · exact List.mem_cons_self _ _
        · exact List.mem_cons_of_mem _ (ih f hf2 hreg)
    · simp only [Bool.not_eq_true] at hg
      simp only [phaseA_dir, hg, Bool.false_eq_true, if_false] at hf ⊢
      rcases List.mem_cons.mp hf with rfl | hf2
      · rw [hg] at hreg
        exact absurd hreg (by decide)
      · exact ih f hf2 hreg

theorem reg_pairs_phaseA (now : Int) (uploadOk unlinkOk : String → Bool)
    (ent_index : String → Int) (ds : List spool_dir) :
    ∀ pr ∈ reg_pairs (phaseA now uploadOk unlinkOk ent_index ds).2,
      ∃ e ∈ (phaseA now uploadOk unlinkOk ent_index ds).1,
        e.filename = pr.1 ∧ e.size = pr.2 := by
  induction ds with
  | nil => simp [phaseA, reg_pairs]
  | cons d ds ih =>
    intro pr hpr
    simp only [phaseA] at hpr ⊢
    rw [reg_pairs_cons] at hpr
    rcases List.mem_append.mp hpr with hl | hr
    · rcases List.mem_map.mp hl with ⟨f, hfmem, hfeq⟩
      rcases List.mem_filter.mp hfmem with ⟨hf2, hreg⟩
      have hreg2 : f.is_file = true := by simpa using hreg
      refine ⟨mk_entry ent_index d.dirpath f, ?_, ?_, ?_⟩
      · exact List.mem_append.mpr (Or.inl
          (phaseA_dir_entry_mem now uploadOk unlinkOk ent_index d.dirpath d.files f hf2 hreg2))
      · rw [← hfeq]
        simp [mk_entry]
      · rw [← hfeq]
        simp [mk_entry]
    · rcases ih pr hr with ⟨e, hmem, h1, h2⟩
      exact ⟨e, List.mem_append.mpr (Or.inr hmem), h1, h2⟩

theorem remove_paths_cons (P : List String) (d : spool_dir) (ds : List spool_dir) :
    remove_paths P (d :: ds) =
      { d with
        files := d.files.filter (fun f => ¬ P.contains (join_paths d.dirpath f.name)) }
        :: remove_paths P ds := rfl

theorem all_paths_phaseA_sublist (now : Int) (uploadOk unlinkOk : String → Bool)
    (ent_index : String → Int) (ds : List spool_dir) :
    List.Sublist (all_paths (phaseA now uploadOk unlinkOk ent_index ds).2)
      (all_paths ds) := by
  induction ds with
  | nil => simp [phaseA, all_paths]
  | cons d ds ih =>
    simp only [phaseA]
    rw [all_paths_cons, all_paths_cons]
    exact List.Sublist.append
      ((phaseA_dir_files_sublist now uploadOk unlinkOk ent_index d.dirpath d.files).map _) ih

theorem all_paths_remove_sublist (P : List String) (ds : List spool_dir) :
    List.Sublist (all_paths (remove_paths P ds)) (all_paths ds) := by
  induction ds with
  | nil => simp [remove_paths, all_paths]
  | cons d ds ih =>
    rw [remove_paths_cons, all_paths_cons, all_paths_cons]
    exact List.Sublist.append ((List.filter_sublist _).map _) ih

theorem reg_pairs_fst_sublist (ds : List spool_dir) :
    List.Sublist ((reg_pairs ds).map Prod.fst) (all_paths ds) := by
  induction ds with
  | nil => simp [reg_pairs, all_paths]
  | cons d ds ih =>
    rw [reg_pairs_cons, all_paths_cons, List.map_append]
    refine List.Sublist.append ?_ ih
    simp only [List.map_map]
    exact (List.filter_sublist _).map _

theorem mem_reg_pairs_remove (P : List String) (ds : List spool_dir) :
    ∀ pr ∈ reg_pairs (remove_paths P ds),
      pr ∈ reg_pairs ds ∧ P.contains pr.1 = false := by
  induction ds with
  | nil => simp [remove_paths, reg_pairs]
  | cons d ds ih =>
    intro pr hpr
    rw [remove_paths_cons, reg_pairs_cons] at hpr
    rcases List.mem_append.mp hpr with hl | hr
    · rcases List.mem_map.mp hl with ⟨f, hfmem, hfeq⟩
      rcases List.mem_filter.mp hfmem with ⟨hf1, hreg⟩
      rcases List.mem_filter.mp hf1 with ⟨hf0, hnc⟩
      constructor
      · rw [reg_pairs_cons]
        refine List.mem_append.mpr (Or.inl (List.mem_map.mpr
          ⟨f, List.mem_filter.mpr ⟨hf0, hreg⟩, ?_⟩))
        rw [← hfeq]
      · rw [← hfeq]
        simpa using hnc
    · rcases ih pr hr with ⟨h1, h2⟩
      refine ⟨?_, h2⟩
      rw [reg_pairs_cons]
      exact List.mem_append.mpr (Or.inr h1)

theorem remove_paths_nil (ds : List spool_dir) : remove_paths [] ds = ds := by
  induction ds with
  | nil => rfl
  | cons d ds ih =>
    rw [remove_paths_cons, ih]
    have hf : d.files.filter
        (fun f => ¬ ([] : List String).contains (join_paths d.dirpath f.name)) = d.files :=
      List.filter_eq_self.mpr (fun a _ => by simp [List.contains])
    rw [hf]

theorem backlog_noup_sizes (now : Int) (un : String → Bool) (ei : String → Int)
    (ds : List spool_dir) :
    (phaseA now (fun _ => false) un ei ds).1.map upload_entry_t.size =
      (reg_pairs ds).map Prod.snd := by
  rw [phaseA_noup now (fun _ => false) un ei ds (fun _ => rfl)]
  induction ds with
  | nil => rfl
  | cons d ds ih =>
    simp only at ih
    rw [reg_pairs_cons]
    simp only [List.foldr_cons, List.map_append, List.map_map]
    rw [ih]
    rfl

theorem subperm_sum_le (l1 l2 : List (String × Nat)) (h : l1.Subperm l2) :
    (l1.map Prod.snd).sum ≤ (l2.map Prod.snd).sum := by
  rcases h with ⟨l3, hperm, hsub⟩
  have h1 : (l1.map Prod.snd).sum = (l3.map Prod.snd).sum :=
    ((hperm.map Prod.snd).sum_eq).symm
  rw [h1]
  exact List.Sublist.sum_le_sum (hsub.map Prod.snd) (fun a _ => Nat.zero_le a)

/-- After a sweep whose deletions all succeed on a spool whose absolute
paths are pairwise distinct, the regular files remaining on disk are a
sub-collection of the kept entries of that sweep, so their total size
respects the quota. -/
theorem retained_bytes_le (now1 : Int) (up1 : String → Bool) (ei1 : String → Int)
    (s0 : sweep_state) (hnd : (all_paths s0.dirs).Nodup) :
    ((reg_pairs (retry_uploads now1 up1 (fun _ => true) ei1 s0).state.dirs).map
      Prod.snd).sum ≤ MAX_UPLOADS_BYTES := by
  have hdirs : (retry_uploads now1 up1 (fun _ => true) ei1 s0).state.dirs
      = remove_paths
          (((phaseB (fun _ => true)
              (upload_list_sort (phaseA now1 up1 (fun _ => true) ei1 s0.dirs).1)
              0 s0.failure_counters false).evicted.filter
            (fun e => ((fun _ => true) : String → Bool) e.filename)).map
              upload_entry_t.filename)
          (phaseA now1 up1 (fun _ => true) ei1 s0.dirs).2 := rfl
  have hfilter : ((phaseB (fun _ => true)
      (upload_list_sort (phaseA now1 up1 (fun _ => true) ei1 s0.dirs).1)
      0 s0.failure_counters false).evicted.filter
        (fun e => ((fun _ => true) : String → Bool) e.filename))
      = (phaseB (fun _ => true)
          (upload_list_sort (phaseA now1 up1 (fun _ => true) ei1 s0.dirs).1)
          0 s0.failure_counters false).evicted :=
    List.filter_eq_self.mpr (fun a _ => rfl)
  rw [hdirs, hfilter]
  have hnodup_fst : (List.map Prod.fst (reg_pairs (remove_paths
      ((phaseB (fun _ => true)
        (upload_list_sort (phaseA now1 up1 (fun _ => true) ei1 s0.dirs).1)
        0 s0.failure_counters false).evicted.map upload_entry_t.filename)
      (phaseA now1 up1 (fun _ => true) ei1 s0.dirs).2))).Nodup :=
    ((reg_pairs_fst_sublist _).trans
      ((all_paths_remove_sublist _ _).trans
        (all_paths_phaseA_sublist now1 up1 (fun _ => true) ei1 s0.dirs))).nodup hnd
  have hnodup := List.Nodup.of_map _ hnodup_fst
  have hsub : ∀ pr ∈ reg_pairs (remove_paths
      ((phaseB (fun _ => true)
        (upload_list_sort (phaseA now1 up1 (fun _ => true) ei1 s0.dirs).1)
        0 s0.failure_counters false).evicted.map upload_entry_t.filename)
      (phaseA now1 up1 (fun _ => true) ei1 s0.dirs).2),
      pr ∈ (phaseB (fun _ => true)
        (upload_list_sort (phaseA now1 up1 (fun _ => true) ei1 s0.dirs).1)
        0 s0.failure_counters false).kept.map epair := by
    intro pr hpr
    rcases mem_reg_pairs_remove _ _ pr hpr with ⟨hpr2, hnc⟩
    rcases reg_pairs_phaseA now1 up1 (fun _ => true) ei1 s0.dirs pr hpr2 with
      ⟨e, he, hef, hes⟩
    have hesorted : e ∈ upload_list_sort (phaseA now1 up1 (fun _ => true) ei1 s0.dirs).1 :=
      (upload_list_sort_perm _).mem_iff.mpr he
    have hsplit := (phaseB_perm (fun _ => true)
      (upload_list_sort (phaseA now1 up1 (fun _ => true) ei1 s0.dirs).1)
      0 s0.failure_counters false).mem_iff.mpr hesorted
    rcases List.mem_append.mp hsplit with hk | hev
    · refine List.mem_map.mpr ⟨e, hk, ?_⟩
      rw [epair, hef, hes]
    · exfalso
      have hconts : ((phaseB (fun _ => true)
          (upload_list_sort (phaseA now1 up1 (fun _ => true) ei1 s0.dirs).1)
          0 s0.failure_counters false).evicted.map upload_entry_t.filename).contains
            pr.1 = true := by
        have hm : pr.1 ∈ (phaseB (fun _ => true)
            (upload_list_sort (phaseA now1 up1 (fun _ => true) ei1 s0.dirs).1)
            0 s0.failure_counters false).evicted.map upload_entry_t.filename :=
          List.mem_map.mpr ⟨e, hev, hef⟩
        simp [List.contains, List.elem_eq_mem, hm]
      rw [hnc] at hconts
      cases hconts
  have hsubperm := List.subperm_of_subset hnodup hsub
  have hsum := subperm_sum_le _ _ hsubperm
  have hk : (((phaseB (fun _ => true)
      (upload_list_sort (phaseA now1 up1 (fun _ => true) ei1 s0.dirs).1)
      0 s0.failure_counters false).kept.map epair).map Prod.snd)
      = (phaseB (fun _ => true)
          (upload_list_sort (phaseA now1 up1 (fun _ => true) ei1 s0.dirs).1)
          0 s0.failure_counters false).kept.map upload_entry_t.size := by
    rw [List.map_map]
    rfl
  rw [hk] at hsum
  have hkept := phaseB_kept_le (fun _ => true)
    (upload_list_sort (phaseA now1 up1 (fun _ => true) ei1 s0.dirs).1)
    0 s0.failure_counters false (Nat.zero_le _)
  omega

/-- A sweep in which no upload succeeds, over a spool whose regular
files already fit the quota, changes nothing: it evicts no entry,
leaves the disk, the counters and the failure report as they were, and
keeps the whole backlog. -/
theorem sweep_noup (now : Int) (un : String → Bool) (ei : String → Int)
    (s : sweep_state)
    (hsum : ((reg_pairs s.dirs).map Prod.snd).sum ≤ MAX_UPLOADS_BYTES) :
    retry_uploads now (fun _ => false) un ei s =
      { state := s,
        kept := upload_list_sort (phaseA now (fun _ => false) un ei s.dirs).1,
        evicted := [],
        new_upload_failure := false } := by
  have hsz : ((upload_list_sort
      (phaseA now (fun _ => false) un ei s.dirs).1).map upload_entry_t.size).sum
      = ((reg_pairs s.dirs).map Prod.snd).sum := by
    have hperm := (upload_list_sort_perm
      (phaseA now (fun _ => false) un ei s.dirs).1).map upload_entry_t.size
    rw [hperm.sum_eq, backlog_noup_sizes]
  have hpb := phaseB_no_evict un
    (upload_list_sort (phaseA now (fun _ => false) un ei s.dirs).1)
    0 s.failure_counters false (by rw [Nat.zero_add, hsz]; exact hsum)
  have hpa := phaseA_noup now (fun _ => false) un ei s.dirs (fun _ => rfl)
  simp only [retry_uploads, hpb]
  simp only [List.filter_nil, List.map_nil]
  rw [hpa]
  simp [remove_paths_nil]

/-- Claim C8: running the sweep twice in immediate succession, with no
new arrivals (the second sweep scans exactly the disk the first one
left), no change in collector availability and all failing uploads
still failing (no upload of the second sweep succeeds), and with every
deletion of the first sweep succeeding, over a spool whose absolute
paths are pairwise distinct: the second sweep evicts nothing, raises no
failure flag, and leaves the disk contents, the failure counters and
the failure report exactly as the first sweep left them. -/
theorem C8_sweep_idempotent (now1 now2 : Int) (up1 un2 : String → Bool)
    (ei1 ei2 : String → Int) (s0 : sweep_state)
    (hnd : (all_paths s0.dirs).Nodup) :
    (retry_uploads now2 (fun _ => false) un2 ei2
      (retry_uploads now1 up1 (fun _ => true) ei1 s0).state).evicted = [] ∧
    (retry_uploads now2 (fun _ => false) un2 ei2
      (retry_uploads now1 up1 (fun _ => true) ei1 s0).state).new_upload_failure = false ∧
    (retry_uploads now2 (fun _ => false) un2 ei2
      (retry_uploads now1 up1 (fun _ => true) ei1 s0).state).state =
      (retry_uploads now1 up1 (fun _ => true) ei1 s0).state := by
  have h := sweep_noup now2 un2 ei2 (retry_uploads now1 up1 (fun _ => true) ei1 s0).state
    (retained_bytes_le now1 up1 ei1 s0 hnd)
  rw [h]
  exact ⟨rfl, rfl, rfl⟩

/-- Spool for the C8 witness: one directory with two regular files. -/
def c8_state : sweep_state :=
  { dirs := [{ subdir := "a", dirpath := "/up/a",
               files := [{ name := "x", st_ctime := 1, st_size := 100, is_file := true },
                         { name := "y", st_ctime := 2, st_size := 200, is_file := true }] }],
    failure_counters := fun _ => 0,
    failures_log := [] }

/-- Witness for C8_sweep_idempotent at the c8_state spool. -/
theorem C8_sweep_idempotent_witness :
    (all_paths c8_state.dirs).Nodup ∧
    ((retry_uploads 300 (fun _ => false) (fun _ => true) (fun _ => 0)
      (retry_uploads 200 (fun _ => false) (fun _ => true) (fun _ => 0) c8_state).state).evicted = [] ∧
    (retry_uploads 300 (fun _ => false) (fun _ => true) (fun _ => 0)
      (retry_uploads 200 (fun _ => false) (fun _ => true) (fun _ => 0) c8_state).state).new_upload_failure = false ∧
    (retry_uploads 300 (fun _ => false) (fun _ => true) (fun _ => 0)
      (retry_uploads 200 (fun _ => false) (fun _ => true) (fun _ => 0) c8_state).state).state =
      (retry_uploads 200 (fun _ => false) (fun _ => true) (fun _ => 0) c8_state).state) :=
  ⟨by decide,
   C8_sweep_idempotent 200 300 (fun _ => false) (fun _ => true) (fun _ => 0) (fun _ => 0)
     c8_state (by decide)⟩
